import Mathlib

/-!
Verification of the stateful change-detection and notification core of the
DiskMonitorService program (`main.go`).

The embedding below translates, from the source:
* the report parser (the regular-expression scan
  `(ReallocatedSectors|PendingSectors|UncorrectedErrors|Wear):\s*(\d+)` over
  the lines of the PowerShell output, the ` - ` key derivation and the
  `currentProblems` map construction),
* the state differ and the Markdown message composition inside
  `checkDiskStatusAndNotify`,
* the delivery engine `sendTelegramNotification` (host prefixing, the
  4096-byte transport threshold, the retry loop with exponential backoff),
* the orchestrator `checkDiskStatusAndNotify` including the
  `powershell_error` sentinel handling, and
* the `test` command path of `main`.

Go maps are embedded as association lists with unique keys (`ProblemSet`);
`reflect.DeepEqual` on maps becomes the extensional comparison `psEqual`;
the HTTP transport is abstracted as a success oracle indexed by attempt
number, and `time.Sleep` durations are recorded in a trace.
-/

namespace DiskMonitor

/-! ## Character classes of the RE2 pattern (`\s`, `\d`) -/

/-- RE2's `\s` class: `[\t\n\f\r ]`. -/
def isSpaceChar (c : Char) : Bool :=
  c == ' ' || c == '\t' || c == '\n' || c == '\x0c' || c == '\r'

/-- Numeric value of a decimal digit character. -/
def digitVal (c : Char) : Nat := c.toNat - '0'.toNat

/-- Value of `strconv.Atoi` on a run of digit characters. -/
def digitsVal (l : List Char) : Nat := l.foldl (fun n c => n * 10 + digitVal c) 0

/-- Strip a literal from the front of a character list, returning the
remainder on success. -/
def stripLit : List Char → List Char → Option (List Char)
  | [], l => some l
  | _ :: _, [] => none
  | p :: ps, c :: cs => if p == c then stripLit ps cs else none

/-- After one of the counter names matched, the regex requires `:`, then
`\s*` (greedy), then `\d+` (greedy).  Returns the captured numeric value and
the rest of the line after the match. -/
def matchAfterName : List Char → Option (Nat × List Char)
  | [] => none
  | c :: rest =>
    if c == ':' then
      let rest2 := rest.dropWhile isSpaceChar
      let ds := rest2.takeWhile Char.isDigit
      if ds.isEmpty then none
      else some (digitsVal ds, rest2.dropWhile Char.isDigit)
    else none

def reallocatedName : List Char := "ReallocatedSectors".data
def pendingName : List Char := "PendingSectors".data
def uncorrectedName : List Char := "UncorrectedErrors".data
def wearName : List Char := "Wear".data

/-- Try to match `name:\s*\d+` at the head of `l`. -/
def matchNamed (name l : List Char) : Option (Nat × List Char) :=
  match stripLit name l with
  | some r => matchAfterName r
  | none => none

/-- Try the four alternatives of the regex at the head of `l`
(alternation order as written in the source pattern). -/
def matchCounterAt (l : List Char) : Option (Nat × List Char) :=
  match matchNamed reallocatedName l with
  | some res => some res
  | none =>
    match matchNamed pendingName l with
    | some res => some res
    | none =>
      match matchNamed uncorrectedName l with
      | some res => some res
      | none => matchNamed wearName l

theorem stripLit_length {p : List Char} :
    ∀ {l r : List Char}, stripLit p l = some r → r.length ≤ l.length := by
  induction p with
  | nil =>
    intro l r h
    simp [stripLit] at h
    simp [h]
  | cons p ps ih =>
    intro l r h
    cases l with
    | nil => simp [stripLit] at h
    | cons c cs =>
      simp only [stripLit] at h
      by_cases hpc : (p == c) = true
      · rw [if_pos hpc] at h
        exact Nat.le_succ_of_le (ih h)
      · rw [if_neg hpc] at h
        exact absurd h (by simp)

theorem matchAfterName_length {l r : List Char} {v : Nat}
    (h : matchAfterName l = some (v, r)) : r.length < l.length := by
  cases l with
  | nil => simp [matchAfterName] at h
  | cons c rest =>
    simp only [matchAfterName] at h
    by_cases hc : (c == ':') = true
    · rw [if_pos hc] at h
      set rest2 := rest.dropWhile isSpaceChar with hrest2
      by_cases hds : (rest2.takeWhile Char.isDigit).isEmpty = true
      · rw [if_pos hds] at h
        exact absurd h (by simp)
      · rw [if_neg hds] at h
        have hr : r = rest2.dropWhile Char.isDigit := by
          have := Option.some.inj h
          exact (Prod.mk.inj this).2.symm
        have h1 : (rest2.dropWhile Char.isDigit).length < rest2.length := by
          cases hcase : rest2 with
          | nil => rw [hcase] at hds; simp [List.takeWhile] at hds
          | cons d t =>
            rw [hcase] at hds
            by_cases hd : Char.isDigit d = true
            · rw [List.dropWhile_cons_of_pos hd]
              have h3 := (List.dropWhile_sublist (l := t) Char.isDigit).length_le
              have h4 : (d :: t).length = t.length + 1 := rfl
              omega
            · rw [List.takeWhile_cons_of_neg hd] at hds
              simp at hds
        have h2 : rest2.length ≤ rest.length :=
          (List.dropWhile_sublist (l := rest) isSpaceChar).length_le
        rw [hr]
        calc (rest2.dropWhile Char.isDigit).length < rest2.length := h1
          _ ≤ rest.length := h2
          _ < (c :: rest).length := by simp
    · rw [if_neg hc] at h
      exact absurd h (by simp)

theorem matchNamed_length {name l r : List Char} {v : Nat}
    (h : matchNamed name l = some (v, r)) : r.length < l.length := by
  unfold matchNamed at h
  cases hs : stripLit name l with
  | none => rw [hs] at h; exact absurd h (by simp)
  | some m =>
    rw [hs] at h
    exact Nat.lt_of_lt_of_le (matchAfterName_length h) (stripLit_length hs)

theorem matchCounterAt_length {l r : List Char} {v : Nat}
    (h : matchCounterAt l = some (v, r)) : r.length < l.length := by
  unfold matchCounterAt at h
  cases h1 : matchNamed reallocatedName l with
  | some res => rw [h1] at h; cases h; exact matchNamed_length h1
  | none =>
    rw [h1] at h
    cases h2 : matchNamed pendingName l with
    | some res => rw [h2] at h; cases h; exact matchNamed_length h2
    | none =>
      rw [h2] at h
      cases h3 : matchNamed uncorrectedName l with
      | some res => rw [h3] at h; cases h; exact matchNamed_length h3
      | none =>
        rw [h3] at h
        exact matchNamed_length h

/-- Worker for `findCounterValues`.  The `fuel` argument only makes the
recursion structural; every step consumes at least one character
(`matchCounterAt_length`), so `fuel = l.length` never runs out, and
`findCounterAux_fuel` below shows the result does not depend on it. -/
def findCounterAux : Nat → List Char → List Nat
  | 0, _ => []
  | _ + 1, [] => []
  | fuel + 1, c :: rest =>
    match matchCounterAt (c :: rest) with
    | some (v, r) => v :: findCounterAux fuel r
    | none => findCounterAux fuel rest

/-- Model of `regexp.FindAllStringSubmatch(line, -1)` restricted to the captured
numeric values: scan left to right, at each position try the pattern; on a
match, continue after it (non-overlapping), otherwise advance one character. -/
def findCounterValues (l : List Char) : List Nat :=
  findCounterAux l.length l

theorem findCounterAux_nil : ∀ f, findCounterAux f [] = []
  | 0 => rfl
  | _ + 1 => rfl

/-- Any fuel of at least `l.length` gives the same scan result. -/
theorem findCounterAux_fuel :
    ∀ {f : Nat} {l : List Char} {g : Nat}, l.length ≤ f → l.length ≤ g →
      findCounterAux f l = findCounterAux g l := by
  intro f
  induction f with
  | zero =>
    intro l g hf _
    have : l = [] := List.length_eq_zero.mp (Nat.le_zero.mp hf)
    subst this
    rw [findCounterAux_nil, findCounterAux_nil]
  | succ f ih =>
    intro l g hf hg
    cases l with
    | nil => rw [findCounterAux_nil, findCounterAux_nil]
    | cons c rest =>
      cases g with
      | zero => simp at hg
      | succ g' =>
        show findCounterAux (f + 1) (c :: rest) = findCounterAux (g' + 1) (c :: rest)
        unfold findCounterAux
        cases hm : matchCounterAt (c :: rest) with
        | some vr =>
          obtain ⟨v, r⟩ := vr
          have hlen := matchCounterAt_length hm
          have h1 : r.length ≤ f := by
            have : (c :: rest).length ≤ f + 1 := hf
            omega
          have h2 : r.length ≤ g' := by
            have : (c :: rest).length ≤ g' + 1 := hg
            omega
          show v :: findCounterAux f r = v :: findCounterAux g' r
          rw [ih h1 h2]
        | none =>
          have h1 : rest.length ≤ f := by
            have : (c :: rest).length ≤ f + 1 := hf
            simp at this
            omega
          have h2 : rest.length ≤ g' := by
            have : (c :: rest).length ≤ g' + 1 := hg
            simp at this
            omega
          show findCounterAux f rest = findCounterAux g' rest
          rw [ih h1 h2]

/-- The per-line problem test of `checkDiskStatusAndNotify`: some matched
counter has a value strictly greater than zero. -/
def lineHasProblem (l : List Char) : Bool :=
  (findCounterValues l).any (fun v => decide (0 < v))

def sepChars : List Char := " - ".data

/-- Model of `strings.Split(line, " - ")[0]`: the characters before the first
occurrence of the literal `" - "` (the whole line when absent). -/
def beforeSep (l : List Char) : List Char :=
  match l with
  | [] => []
  | c :: rest =>
    if (stripLit sepChars (c :: rest)).isSome then [] else c :: beforeSep rest

/-! ## Line splitting (`bufio.Scanner` with `ScanLines`) -/

/-- Split on `'\n'`; always returns at least one (possibly empty) part. -/
def splitOnNl (l : List Char) : List (List Char) :=
  match l with
  | [] => [[]]
  | c :: rest =>
    if c == '\n' then [] :: splitOnNl rest
    else
      match splitOnNl rest with
      | [] => [[c]]
      | p :: ps => (c :: p) :: ps

/-- Model of the `dropCR` step of `bufio.ScanLines`: drop one trailing `'\r'` if present. -/
def dropCR (l : List Char) : List Char :=
  if l.getLast? == some '\r' then l.dropLast else l

/-- The sequence of lines produced by `bufio.NewScanner` over the raw text:
split on newlines, drop the empty token after a trailing newline, and strip
one trailing carriage return from each line. -/
def goScanLines (raw : String) : List String :=
  let parts := splitOnNl raw.data
  let parts2 := if parts.getLast? == some [] then parts.dropLast else parts
  parts2.map (fun l => String.mk (dropCR l))

/-! ## ProblemSet: the Go `map[string]string` as an association list -/

/-- Type of `currentProblems` and `lastErrorState`: a `map[string]string`, embedded as
an association list whose keys are unique in every reachable state. -/
abbrev ProblemSet := List (String × String)

/-- Key membership test (a Go map lookup's `exists` component). -/
def containsKey (m : ProblemSet) (k : String) : Bool :=
  m.any (fun kv => kv.1 == k)

/-- Keys of `m` are pairwise distinct (invariant of every Go map). -/
def KeysNodup (m : ProblemSet) : Prop := (m.map Prod.fst).Nodup

/-- Go map assignment `m[k] = v`: overwrite if the key exists, append
otherwise. -/
def insertKV (m : ProblemSet) (k v : String) : ProblemSet :=
  if containsKey m k then m.map (fun kv => if kv.1 == k then (k, v) else kv)
  else m ++ [(k, v)]

/-- Go map read `m[k]` with the string zero value `""` for a missing key. -/
def lookupD (m : ProblemSet) (k : String) : String :=
  match List.lookup k m with
  | some v => v
  | none => ""

/-- Model of `reflect.DeepEqual` on two `map[string]string`: the same key/value
pairs on both sides. -/
def psEqual (a b : ProblemSet) : Bool :=
  a.all (fun kv => List.lookup kv.1 b == some kv.2) &&
  b.all (fun kv => List.lookup kv.1 a == some kv.2)

/-! ## Report parser (the scanning loop of `checkDiskStatusAndNotify`) -/

/-- One iteration of the scanner loop: a line with some positive counter is
stored under the key `strings.Split(line, " - ")[0]` with the full line as
the value. -/
def parseLineStep (m : ProblemSet) (line : String) : ProblemSet :=
  if lineHasProblem line.data then
    insertKV m (String.mk (beforeSep line.data)) line
  else m

/-- The whole scanning loop: `currentProblems` built from the raw
PowerShell output. -/
def parseOutput (raw : String) : ProblemSet :=
  (goScanLines raw).foldl parseLineStep []

/-! ## State differ and message composer -/

/-- The devices selected by the first composition loop: entries of
`currentProblems` whose description differs from the one stored in
`lastErrorState` (`lastErrorState[disk] != problem`, with `""` for a
missing key). -/
def changedOrNew (prev cur : ProblemSet) : ProblemSet :=
  cur.filter (fun kv => !(lookupD prev kv.1 == kv.2))

/-- The devices selected by the second composition loop: keys of
`lastErrorState` absent from `currentProblems`. -/
def resolvedKeys (prev cur : ProblemSet) : List String :=
  (prev.map Prod.fst).filter (fun k => !(containsKey cur k))

def diffHeader : String := "Disk health status has changed!\n\n"

def detectedBlock (problem : String) : String :=
  "🔴 **Problem Detected/Changed:**\n`" ++ problem ++ "`\n\n"

def resolvedBlock (disk : String) : String :=
  "🟢 **Problem Resolved:**\n`" ++ disk ++ "` is now OK.\n\n"

/-- The Markdown diff message built by `messageBuilder`. -/
def diffMessage (prev cur : ProblemSet) : String :=
  diffHeader
    ++ String.join ((changedOrNew prev cur).map (fun kv => detectedBlock kv.2))
    ++ String.join ((resolvedKeys prev cur).map resolvedBlock)

/-! ## Delivery engine (`sendTelegramNotification`) -/

def telegramMsgLimit : Nat := 4096
def maxRetries : Nat := 4
/-- Constant `initialRetryDelay`, in seconds. -/
def initialRetryDelay : Nat := 5

inductive Transport where
  | text
  | document
deriving DecidableEq, Repr

/-- The host prefix of every outbound message:
`fmt.Sprintf("🖥️ **Host:** `%s`\n\n%s", hostname, message)`. -/
def fullMessageOf (hostname message : String) : String :=
  "🖥️ **Host:** `" ++ hostname ++ "`\n\n" ++ message

/-- Number of bytes of the UTF-8 encoding of a character. -/
def charBytes (c : Char) : Nat :=
  if c.val < 0x80 then 1
  else if c.val < 0x800 then 2
  else if c.val < 0x10000 then 3
  else 4

/-- Go `len` on a string: its UTF-8 byte count. -/
def goLen (s : String) : Nat := (s.data.map charBytes).sum

/-- Transport selection: `if len(fullMessage) > telegramMsgLimit` selects the document
transport, otherwise the inline-text transport. -/
def chooseTransport (full : String) : Transport :=
  if telegramMsgLimit < goLen full then Transport.document else Transport.text

/-- Observable behaviour of one `sendTelegramNotification` call: the
transport used by each attempt in order, the sleeps performed between
attempts (in seconds), and whether some attempt succeeded.  The Go function
returns nothing, so no error can reach the caller. -/
structure SendTrace where
  attempts : List Transport
  delays : List Nat
  delivered : Bool
deriving DecidableEq, Repr

/-- The retry loop `for i := 0; i <= maxRetries; i++`, with the network
abstracted as a success oracle indexed by attempt number.  `fuel` bounds the
remaining iterations and is `maxRetries + 1 - i` at every call. -/
def sendFrom (oracle : Nat → Bool) (full : String) : Nat → Nat → SendTrace
  | _, 0 => ⟨[], [], false⟩
  | i, fuel + 1 =>
    let tr := chooseTransport full
    if oracle i then ⟨[tr], [], true⟩
    else if i = maxRetries then ⟨[tr], [], false⟩
    else
      let rest := sendFrom oracle full (i + 1) fuel
      ⟨tr :: rest.attempts, initialRetryDelay * 3 ^ i :: rest.delays,
        rest.delivered⟩

/-- Model of `sendTelegramNotification(message)`: prefix with the host identifier,
then run the retry loop from attempt 0. -/
def sendTelegramNotification (oracle : Nat → Bool) (hostname message : String) :
    SendTrace :=
  sendFrom oracle (fullMessageOf hostname message) 0 (maxRetries + 1)

/-! ## Check orchestrator (`checkDiskStatusAndNotify`) -/

def sentinelKey : String := "powershell_error"

/-- Value of `fmt.Sprintf("Failed to run PowerShell command: %v", err)`. -/
def acqErrMsg (e : String) : String :=
  "Failed to run PowerShell command: " ++ e

/-- Alert text `"⚠️ " + currentErrorMsg`. -/
def alertOf (m : String) : String := "⚠️ " ++ m

/-- Result of one call of `checkDiskStatusAndNotify`: the value of
`lastErrorState` after the call and the messages handed to
`sendTelegramNotification`, each paired with its delivery trace. -/
structure CycleOut where
  newState : ProblemSet
  sent : List (String × SendTrace)
deriving DecidableEq, Repr

/-- One check cycle.  `acq` is the outcome of `cmd.Output()` (the raw text,
or the formatted error `%v`); `last` is `lastErrorState` on entry. -/
def checkDiskStatusAndNotify (oracle : Nat → Bool) (hostname : String)
    (acq : Except String String) (last : ProblemSet) : CycleOut :=
  match acq with
  | Except.error e =>
    let msg := acqErrMsg e
    if lookupD last sentinelKey == msg then ⟨last, []⟩
    else
      ⟨[(sentinelKey, msg)],
        [(alertOf msg, sendTelegramNotification oracle hostname (alertOf msg))]⟩
  | Except.ok raw =>
    let cur := parseOutput raw
    if psEqual cur last then ⟨last, []⟩
    else
      ⟨cur,
        [(diffMessage last cur,
          sendTelegramNotification oracle hostname (diffMessage last cur))]⟩

/-! ## The `test` command path of `main` -/

def noProblemsMsg : String := "✅ Test complete. No active problems found."

/-- The summary composed after the check cycle of a `test` run, from the
value of `lastErrorState` at that point. -/
def summaryOf (st : ProblemSet) : String :=
  if st.isEmpty then noProblemsMsg
  else
    "ℹ️ Test complete. Current active problems:\n\n`"
      ++ String.intercalate "`\n`" (st.map Prod.snd) ++ "`"

/-- Result of the `test` command: the cycle it ran, the summary it
composed, and every message handed to the delivery engine, in order. -/
structure TestOut where
  cycle : CycleOut
  summary : String
  sent : List (String × SendTrace)
deriving DecidableEq, Repr

/-- The `case "test"` branch of `main`: run one full check cycle, then
compose a summary of the updated `lastErrorState` and always send it. -/
def runTestCommand (oracle : Nat → Bool) (hostname : String)
    (acq : Except String String) (last : ProblemSet) : TestOut :=
  let c := checkDiskStatusAndNotify oracle hostname acq last
  let s := summaryOf c.newState
  ⟨c, s, c.sent ++ [(s, sendTelegramNotification oracle hostname s)]⟩

/-! ## Helper lemmas about the map embedding -/

theorem mem_of_lookup_eq_some {m : ProblemSet} {k v : String}
    (h : List.lookup k m = some v) : (k, v) ∈ m := by
  induction m with
  | nil => simp [List.lookup] at h
  | cons kv t ih =>
    obtain ⟨a, b⟩ := kv
    rw [List.lookup] at h
    by_cases hk : (k == a) = true
    · rw [hk] at h
      simp only [Option.some.injEq] at h
      have : k = a := by simpa using hk
      subst this; subst h
      exact List.mem_cons_self _ _
    · rw [Bool.not_eq_true] at hk
      rw [hk] at h
      exact List.mem_cons_of_mem _ (ih h)

theorem lookup_eq_some_of_mem {m : ProblemSet} {k v : String}
    (hnd : KeysNodup m) (h : (k, v) ∈ m) : List.lookup k m = some v := by
  induction m with
  | nil => simp at h
  | cons kv t ih =>
    obtain ⟨a, b⟩ := kv
    have hnd' : KeysNodup t := (List.nodup_cons.mp hnd).2
    have hna : a ∉ t.map Prod.fst := (List.nodup_cons.mp hnd).1
    rcases List.mem_cons.mp h with heq | hmem
    · obtain ⟨h1, h2⟩ := Prod.mk.inj heq
      subst h1; subst h2
      simp [List.lookup]
    · have hk : k ≠ a := by
        intro hka
        subst hka
        exact hna (List.mem_map.mpr ⟨(k, v), hmem, rfl⟩)
      rw [List.lookup]
      have : (k == a) = false := by simpa using hk
      rw [this]
      exact ih hnd' hmem

theorem containsKey_iff {m : ProblemSet} {k : String} :
    containsKey m k = true ↔ k ∈ m.map Prod.fst := by
  simp only [containsKey, List.any_eq_true, List.mem_map, beq_iff_eq]

theorem lookup_eq_none_iff {m : ProblemSet} {k : String} :
    List.lookup k m = none ↔ containsKey m k = false := by
  induction m with
  | nil => simp [List.lookup, containsKey]
  | cons kv t ih =>
    obtain ⟨a, b⟩ := kv
    rw [List.lookup]
    by_cases hk : (k == a) = true
    · rw [hk]
      simp only [containsKey, List.any_cons]
      have : (a == k) = true := by
        have : k = a := by simpa using hk
        simp [this]
      simp [this]
    · rw [Bool.not_eq_true] at hk
      rw [hk]
      simp only [containsKey, List.any_cons] at *
      have : (a == k) = false := by
        have : ¬k = a := by simpa using hk
        simp [beq_iff_eq]
        exact fun hax => (this hax.symm)
      simp [this, ih, containsKey]

theorem lookupD_eq_of_mem {m : ProblemSet} {k v : String}
    (hnd : KeysNodup m) (h : (k, v) ∈ m) : lookupD m k = v := by
  simp [lookupD, lookup_eq_some_of_mem hnd h]

/-- Characterization of `lookupD m k ≠ d` for a nonempty `d`: either the key
is absent or it is bound to a different value. -/
theorem lookupD_ne_iff {m : ProblemSet} {k d : String} (hd : d ≠ "") :
    ¬lookupD m k = d ↔ ¬List.lookup k m = some d := by
  unfold lookupD
  cases h : List.lookup k m with
  | none => simp [Ne.symm hd]
  | some v => simp

theorem mem_insertKV {m : ProblemSet} {k v : String} {kv : String × String}
    (h : kv ∈ insertKV m k v) : kv ∈ m ∨ kv = (k, v) := by
  unfold insertKV at h
  by_cases hc : containsKey m k = true
  · rw [if_pos hc] at h
    rcases List.mem_map.mp h with ⟨kv', hkv', heq⟩
    by_cases hk : (kv'.1 == k) = true
    · rw [if_pos hk] at heq; right; exact heq.symm
    · rw [if_neg hk] at heq; left; rw [← heq]; exact hkv'
  · rw [if_neg hc] at h
    rcases List.mem_append.mp h with hm | hm
    · left; exact hm
    · right; simpa using hm

theorem containsKey_insertKV_self {m : ProblemSet} {k v : String} :
    containsKey (insertKV m k v) k = true := by
  unfold insertKV
  by_cases hc : containsKey m k = true
  · rw [if_pos hc]
    rcases List.any_eq_true.mp hc with ⟨kv, hkv, hb⟩
    refine List.any_eq_true.mpr ⟨(k, v), List.mem_map.mpr ⟨kv, hkv, ?_⟩, by simp⟩
    rw [if_pos hb]
  · rw [if_neg hc]
    exact List.any_eq_true.mpr ⟨(k, v), by simp, by simp⟩

theorem containsKey_insertKV_of {m : ProblemSet} {k v k' : String}
    (h : containsKey m k' = true) : containsKey (insertKV m k v) k' = true := by
  unfold insertKV
  by_cases hc : containsKey m k = true
  · rw [if_pos hc]
    rcases List.any_eq_true.mp h with ⟨kv, hkv, hb⟩
    refine List.any_eq_true.mpr
      ⟨if kv.1 == k then (k, v) else kv, List.mem_map.mpr ⟨kv, hkv, rfl⟩, ?_⟩
    by_cases hk : (kv.1 == k) = true
    · rw [if_pos hk]
      have h1 : kv.1 = k' := by simpa using hb
      have h2 : kv.1 = k := by simpa using hk
      simp [← h1, h2]
    · rw [if_neg hk]; exact hb
  · rw [if_neg hc]
    rcases List.any_eq_true.mp h with ⟨kv, hkv, hb⟩
    exact List.any_eq_true.mpr ⟨kv, List.mem_append_left _ hkv, hb⟩

/-! ## Helper lemmas about the parser -/

/-- Soundness of the scanning loop, generalized over the accumulator. -/
theorem mem_foldl_parseLineStep {lines : List String} :
    ∀ {m : ProblemSet} {kv : String × String},
      kv ∈ lines.foldl parseLineStep m →
      kv ∈ m ∨ (kv.2 ∈ lines ∧ lineHasProblem kv.2.data = true ∧
        kv.1 = String.mk (beforeSep kv.2.data)) := by
  induction lines with
  | nil => intro m kv h; exact Or.inl h
  | cons line rest ih =>
    intro m kv h
    rw [List.foldl_cons] at h
    rcases ih h with hm | hrest
    · unfold parseLineStep at hm
      by_cases hp : lineHasProblem line.data = true
      · rw [if_pos hp] at hm
        rcases mem_insertKV hm with hm' | hm'
        · exact Or.inl hm'
        · right
          rw [hm']
          exact ⟨List.mem_cons_self _ _, hp, rfl⟩
      · rw [if_neg hp] at hm
        exact Or.inl hm
    · right
      exact ⟨List.mem_cons_of_mem _ hrest.1, hrest.2.1, hrest.2.2⟩

theorem parseOutput_sound {raw : String} {kv : String × String}
    (h : kv ∈ parseOutput raw) :
    kv.2 ∈ goScanLines raw ∧ lineHasProblem kv.2.data = true ∧
      kv.1 = String.mk (beforeSep kv.2.data) := by
  rcases mem_foldl_parseLineStep h with hm | hok
  · simp at hm
  · exact hok

/-- Completeness of the scanning loop, generalized over the accumulator. -/
theorem containsKey_foldl_parseLineStep {lines : List String} :
    ∀ {m : ProblemSet} {line : String},
      (line ∈ lines ∧ lineHasProblem line.data = true) ∨
          containsKey m (String.mk (beforeSep line.data)) = true →
      containsKey (lines.foldl parseLineStep m)
        (String.mk (beforeSep line.data)) = true := by
  induction lines with
  | nil =>
    intro m line h
    rcases h with ⟨h1, _⟩ | h2
    · simp at h1
    · exact h2
  | cons l rest ih =>
    intro m line h
    rw [List.foldl_cons]
    rcases h with ⟨h1, h2⟩ | h3
    · rcases List.mem_cons.mp h1 with rfl | hmem
      · apply ih
        right
        unfold parseLineStep
        rw [if_pos h2]
        exact containsKey_insertKV_self
      · exact ih (Or.inl ⟨hmem, h2⟩)
    · apply ih
      right
      unfold parseLineStep
      by_cases hp : lineHasProblem l.data = true
      · rw [if_pos hp]
        exact containsKey_insertKV_of h3
      · rw [if_neg hp]
        exact h3

theorem parseOutput_complete {raw line : String}
    (h1 : line ∈ goScanLines raw) (h2 : lineHasProblem line.data = true) :
    containsKey (parseOutput raw) (String.mk (beforeSep line.data)) = true :=
  containsKey_foldl_parseLineStep (Or.inl ⟨h1, h2⟩)

theorem parseOutput_empty_iff {raw : String} :
    parseOutput raw = [] ↔
      ∀ line ∈ goScanLines raw, lineHasProblem line.data = false := by
  constructor
  · intro h line hline
    by_contra hp
    rw [Bool.not_eq_false] at hp
    have := parseOutput_complete hline hp
    rw [h] at this
    simp [containsKey] at this
  · intro h
    unfold parseOutput
    have hgen : ∀ L : List String,
        (∀ line ∈ L, lineHasProblem line.data = false) →
          L.foldl parseLineStep [] = [] := by
      intro L
      induction L with
      | nil => intro _; simp
      | cons l rest ih =>
        intro hL
        rw [List.foldl_cons]
        have hstep : parseLineStep [] l = [] := by
          unfold parseLineStep
          rw [hL l (List.mem_cons_self _ _)]
          simp
        rw [hstep]
        exact ih fun x hx => hL x (List.mem_cons_of_mem _ hx)
    exact hgen _ h

/-- A stored description is a problem line, hence nonempty. -/
theorem ne_empty_of_lineHasProblem {s : String}
    (h : lineHasProblem s.data = true) : s ≠ "" := by
  intro hs
  subst hs
  simp [lineHasProblem, findCounterValues, findCounterAux] at h

theorem parseOutput_desc_ne_empty {raw : String} :
    ∀ kv ∈ parseOutput raw, kv.2 ≠ "" := by
  intro kv hkv
  exact ne_empty_of_lineHasProblem (parseOutput_sound hkv).2.1

/-! ## Claim theorems -/

/-- C1: for every previous and current ProblemSet produced by a check cycle
(current descriptions are nonempty problem lines, previous keys are unique),
`changedOrNew` holds exactly the devices of `current` whose description
differs from the one in `previous` (including devices absent from
`previous`), `resolvedKeys` holds exactly the devices of `previous` absent
from `current`, a device with the same key and identical description is in
neither collection, and the composed message consists of the header followed
by exactly one block per element of the two collections. -/
theorem differ_classification (prev cur : ProblemSet) (k d : String)
    (hprev : KeysNodup prev)
    (hcur : ∀ kv ∈ cur, kv.2 ≠ "") :
    ((k, d) ∈ changedOrNew prev cur ↔
      ((k, d) ∈ cur ∧ ¬List.lookup k prev = some d))
  ∧ (k ∈ resolvedKeys prev cur ↔
      (k ∈ prev.map Prod.fst ∧ List.lookup k cur = none))
  ∧ ((k, d) ∈ prev → (k, d) ∈ cur →
      ((k, d) ∉ changedOrNew prev cur ∧ k ∉ resolvedKeys prev cur))
  ∧ diffMessage prev cur =
      diffHeader
        ++ String.join ((changedOrNew prev cur).map (fun kv => detectedBlock kv.2))
        ++ String.join ((resolvedKeys prev cur).map resolvedBlock) := by
  have hchanged : (k, d) ∈ changedOrNew prev cur ↔
      ((k, d) ∈ cur ∧ ¬List.lookup k prev = some d) := by
    constructor
    · intro h
      have hmem := (List.mem_filter.mp h).1
      have hb := (List.mem_filter.mp h).2
      have hd : d ≠ "" := hcur _ hmem
      refine ⟨hmem, (lookupD_ne_iff hd).mp ?_⟩
      simpa using hb
    · rintro ⟨hmem, hlk⟩
      refine List.mem_filter.mpr ⟨hmem, ?_⟩
      have hd : d ≠ "" := hcur _ hmem
      simpa using (lookupD_ne_iff hd).mpr hlk
  have hresolved : k ∈ resolvedKeys prev cur ↔
      (k ∈ prev.map Prod.fst ∧ List.lookup k cur = none) := by
    unfold resolvedKeys
    rw [List.mem_filter]
    constructor
    · rintro ⟨h1, h2⟩
      refine ⟨h1, lookup_eq_none_iff.mpr ?_⟩
      simpa using h2
    · rintro ⟨h1, h2⟩
      refine ⟨h1, ?_⟩
      have := lookup_eq_none_iff.mp h2
      simp [this]
  refine ⟨hchanged, hresolved, ?_, rfl⟩
  intro hp hc
  constructor
  · intro habs
    have := (hchanged.mp habs).2
    exact this (lookup_eq_some_of_mem hprev hp)
  · intro habs
    have h2 := (hresolved.mp habs).2
    have h3 : containsKey cur k = true :=
      containsKey_iff.mpr (List.mem_map.mpr ⟨(k, d), hc, rfl⟩)
    rw [lookup_eq_none_iff] at h2
    rw [h2] at h3
    exact Bool.false_ne_true h3

theorem differ_classification_witness :
    KeysNodup [("a", "x")]
  ∧ (∀ kv ∈ [("a", "y"), ("b", "z")], kv.2 ≠ "")
  ∧ (("a", "y") ∈ changedOrNew [("a", "x")] [("a", "y"), ("b", "z")] ↔
      (("a", "y") ∈ [("a", "y"), ("b", "z")] ∧
        ¬List.lookup "a" [("a", "x")] = some "y"))
  ∧ ("a" ∈ resolvedKeys [("a", "x")] [("a", "y"), ("b", "z")] ↔
      ("a" ∈ [("a", "x")].map Prod.fst ∧
        List.lookup "a" [("a", "y"), ("b", "z")] = none))
  ∧ (("a", "y") ∈ [("a", "x")] → ("a", "y") ∈ [("a", "y"), ("b", "z")] →
      (("a", "y") ∉ changedOrNew [("a", "x")] [("a", "y"), ("b", "z")] ∧
        "a" ∉ resolvedKeys [("a", "x")] [("a", "y"), ("b", "z")]))
  ∧ diffMessage [("a", "x")] [("a", "y"), ("b", "z")] =
      diffHeader
        ++ String.join ((changedOrNew [("a", "x")] [("a", "y"), ("b", "z")]).map
            (fun kv => detectedBlock kv.2))
        ++ String.join ((resolvedKeys [("a", "x")] [("a", "y"), ("b", "z")]).map
            resolvedBlock) := by
  refine ⟨by unfold KeysNodup; decide, by decide, ?_⟩
  have h := differ_classification [("a", "x")] [("a", "y"), ("b", "z")] "a" "y"
    (by unfold KeysNodup; decide) (by decide)
  exact ⟨h.1, h.2.1, h.2.2.1, h.2.2.2⟩

/-- C6: a check cycle whose parsed current ProblemSet is structurally equal
(`reflect.DeepEqual`) to the retained previous one sends no notification and
leaves the retained state unchanged; in particular the diff of any
ProblemSet with itself has empty `changedOrNew` and empty `resolvedKeys`. -/
theorem diff_reflexive_no_notification (S last : ProblemSet) (raw : String)
    (oracle : Nat → Bool) (hostname : String)
    (hS : KeysNodup S)
    (h : psEqual (parseOutput raw) last = true) :
    changedOrNew S S = []
  ∧ resolvedKeys S S = []
  ∧ (checkDiskStatusAndNotify oracle hostname (Except.ok raw) last).sent = []
  ∧ (checkDiskStatusAndNotify oracle hostname (Except.ok raw) last).newState
      = last := by
  refine ⟨?_, ?_, ?_, ?_⟩
  · apply List.filter_eq_nil_iff.mpr
    intro kv hkv
    have hl : lookupD S kv.1 = kv.2 := by
      have : (kv.1, kv.2) ∈ S := by simpa using hkv
      exact lookupD_eq_of_mem hS this
    simp [hl]
  · apply List.filter_eq_nil_iff.mpr
    intro a ha
    have : containsKey S a = true := containsKey_iff.mpr ha
    simp [this]
  · simp [checkDiskStatusAndNotify, h]
  · simp [checkDiskStatusAndNotify, h]

theorem diff_reflexive_no_notification_witness :
    KeysNodup [("a", "x"), ("b", "y")]
  ∧ psEqual (parseOutput "") [] = true
  ∧ changedOrNew [("a", "x"), ("b", "y")] [("a", "x"), ("b", "y")] = []
  ∧ resolvedKeys [("a", "x"), ("b", "y")] [("a", "x"), ("b", "y")] = []
  ∧ (checkDiskStatusAndNotify (fun _ => true) "host" (Except.ok "") []).sent = []
  ∧ (checkDiskStatusAndNotify (fun _ => true) "host" (Except.ok "") []).newState
      = [] := by
  refine ⟨by unfold KeysNodup; decide, by decide, ?_⟩
  have h := diff_reflexive_no_notification [("a", "x"), ("b", "y")] [] ""
    (fun _ => true) "host" (by unfold KeysNodup; decide) (by decide)
  exact ⟨h.1, h.2.1, h.2.2.1, h.2.2.2⟩

/-- C2: when every delivery attempt fails, the engine makes exactly 5
attempts (1 initial + 4 retries), sleeps exactly 5, 15, 45 and 135 seconds
between consecutive attempts, reports no delivery, and (being a total
function into a trace) raises nothing to its caller. -/
theorem retry_policy_exhaustion (oracle : Nat → Bool) (hostname message : String)
    (h : ∀ i, oracle i = false) :
    (sendTelegramNotification oracle hostname message).attempts.length = 5
  ∧ (sendTelegramNotification oracle hostname message).delays = [5, 15, 45, 135]
  ∧ (sendTelegramNotification oracle hostname message).delivered = false := by
  unfold sendTelegramNotification
  norm_num [sendFrom, h, maxRetries, initialRetryDelay]

theorem retry_policy_exhaustion_witness :
    (∀ i : Nat, (fun _ : Nat => false) i = false)
  ∧ (sendTelegramNotification (fun _ => false) "host" "msg").attempts.length = 5
  ∧ (sendTelegramNotification (fun _ => false) "host" "msg").delays
      = [5, 15, 45, 135]
  ∧ (sendTelegramNotification (fun _ => false) "host" "msg").delivered = false :=
  ⟨fun _ => rfl, retry_policy_exhaustion (fun _ => false) "host" "msg" fun _ => rfl⟩

/-! ## Helper lemmas about the delivery engine and byte lengths -/

theorem sendFrom_attempts_all (oracle : Nat → Bool) (full : String) :
    ∀ (fuel i : Nat), ∀ tr ∈ (sendFrom oracle full i fuel).attempts,
      tr = chooseTransport full := by
  intro fuel
  induction fuel with
  | zero => intro i tr htr; simp [sendFrom] at htr
  | succ f ih =>
    intro i tr htr
    simp only [sendFrom] at htr
    split_ifs at htr
    · simp at htr; exact htr
    · simp at htr; exact htr
    · simp at htr
      rcases htr with h | h
      · exact h
      · exact ih (i + 1) tr h

theorem sendFrom_attempts_ne_nil (oracle : Nat → Bool) (full : String)
    (f i : Nat) : (sendFrom oracle full i (f + 1)).attempts ≠ [] := by
  simp only [sendFrom]
  split_ifs <;> simp

theorem sendFrom_success (oracle : Nat → Bool) (full : String) (i f : Nat)
    (h : oracle i = true) :
    sendFrom oracle full i (f + 1) = ⟨[chooseTransport full], [], true⟩ := by
  simp only [sendFrom]
  rw [if_pos h]

theorem goLen_append (a b : String) : goLen (a ++ b) = goLen a + goLen b := by
  have h : (a ++ b).data = a.data ++ b.data := rfl
  simp [goLen, h]

theorem goLen_mk_replicate (n : Nat) (c : Char) :
    goLen (String.mk (List.replicate n c)) = n * charBytes c := by
  simp [goLen, List.map_replicate, Nat.mul_comm]

theorem length_mk_replicate (n : Nat) (c : Char) :
    (String.mk (List.replicate n c)).length = n := by
  show (List.replicate n c).length = n
  simp

/-! ## Claim theorems (delivery and parser) -/

/-- C3 (amended): the transport threshold is applied to the length of the
host-prefixed outbound message measured by Go `len`, i.e. in UTF-8 bytes
rather than characters: every outbound message is first prefixed with the
host identifier; if its byte length exceeds 4096 it is delivered (on every
attempt) as a document, otherwise — including exactly 4096 bytes — as an
inline text message. -/
theorem transport_selection (oracle : Nat → Bool) (hostname message : String) :
    fullMessageOf hostname message
      = "🖥️ **Host:** `" ++ hostname ++ "`\n\n" ++ message
  ∧ (sendTelegramNotification oracle hostname message).attempts ≠ []
  ∧ (goLen (fullMessageOf hostname message) ≤ telegramMsgLimit →
      ∀ tr ∈ (sendTelegramNotification oracle hostname message).attempts,
        tr = Transport.text)
  ∧ (telegramMsgLimit < goLen (fullMessageOf hostname message) →
      ∀ tr ∈ (sendTelegramNotification oracle hostname message).attempts,
        tr = Transport.document) := by
  refine ⟨rfl, sendFrom_attempts_ne_nil _ _ _ _, ?_, ?_⟩
  · intro hle tr htr
    have h := sendFrom_attempts_all _ _ _ _ tr htr
    rw [h]
    unfold chooseTransport
    rw [if_neg (Nat.not_lt.mpr hle)]
  · intro hlt tr htr
    have h := sendFrom_attempts_all _ _ _ _ tr htr
    rw [h]
    unfold chooseTransport
    rw [if_pos hlt]

theorem transport_selection_witness :
    (fullMessageOf "h" "m" = "🖥️ **Host:** `" ++ "h" ++ "`\n\n" ++ "m")
  ∧ (sendTelegramNotification (fun _ => true) "h" "m").attempts ≠ []
  ∧ (goLen (fullMessageOf "h" "m") ≤ telegramMsgLimit →
      ∀ tr ∈ (sendTelegramNotification (fun _ => true) "h" "m").attempts,
        tr = Transport.text)
  ∧ (telegramMsgLimit < goLen (fullMessageOf "h" "m") →
      ∀ tr ∈ (sendTelegramNotification (fun _ => true) "h" "m").attempts,
        tr = Transport.document) :=
  transport_selection (fun _ => true) "h" "m"

/-- C3 counterexample to the claim as stated: a composed message whose
host-prefixed outbound form has exactly 4096 characters — so, per the
claim, it should be routed to the inline-text transport — is delivered as a
document, because the code thresholds on `len` (UTF-8 bytes: here 4101,
since the host prefix contains multi-byte characters). -/
theorem transport_selection_counterexample :
    (fullMessageOf "h" (String.mk (List.replicate 4078 'a'))).length = 4096
  ∧ (sendTelegramNotification (fun _ => true) "h"
      (String.mk (List.replicate 4078 'a'))).attempts
        = [Transport.document] := by
  have hbyte : telegramMsgLimit
      < goLen (fullMessageOf "h" (String.mk (List.replicate 4078 'a'))) := by
    unfold fullMessageOf
    rw [goLen_append, goLen_append, goLen_append, goLen_mk_replicate]
    have h1 : goLen "🖥️ **Host:** `" = 19 := by decide
    have h2 : goLen "h" = 1 := by decide
    have h3 : goLen "`\n\n" = 3 := by decide
    have h4 : charBytes 'a' = 1 := by decide
    rw [h1, h2, h3, h4]
    decide
  constructor
  · unfold fullMessageOf
    rw [String.length_append, String.length_append, String.length_append,
      length_mk_replicate]
    have h1 : ("🖥️ **Host:** `" : String).length = 14 := by decide
    have h2 : ("h" : String).length = 1 := by decide
    have h3 : ("`\n\n" : String).length = 3 := by decide
    rw [h1, h2, h3]
  · show (sendFrom (fun _ => true)
      (fullMessageOf "h" (String.mk (List.replicate 4078 'a'))) 0
        (maxRetries + 1)).attempts = [Transport.document]
    have hch : chooseTransport
        (fullMessageOf "h" (String.mk (List.replicate 4078 'a')))
          = Transport.document := by
      unfold chooseTransport
      rw [if_pos hbyte]
    rw [sendFrom_success (fun _ => true) _ 0 maxRetries rfl]
    show [chooseTransport (fullMessageOf "h" (String.mk (List.replicate 4078 'a')))]
      = [Transport.document]
    rw [hch]

/-- C4: whenever a change is detected (the parsed current ProblemSet is not
`DeepEqual` to the retained one), the retained state after the cycle is the
newly parsed ProblemSet for every delivery oracle — in particular when every
delivery attempt fails — and exactly one notification hand-off happened. -/
theorem state_commit_regardless_of_delivery (oracle : Nat → Bool)
    (hostname raw : String) (last : ProblemSet)
    (h : psEqual (parseOutput raw) last = false) :
    (checkDiskStatusAndNotify oracle hostname (Except.ok raw) last).newState
      = parseOutput raw
  ∧ (checkDiskStatusAndNotify oracle hostname (Except.ok raw) last).sent.length
      = 1 := by
  simp [checkDiskStatusAndNotify, h]

theorem state_commit_regardless_of_delivery_witness :
    psEqual (parseOutput "") [("d", "x")] = false
  ∧ (checkDiskStatusAndNotify (fun _ => false) "h" (Except.ok "")
      [("d", "x")]).newState = parseOutput ""
  ∧ (checkDiskStatusAndNotify (fun _ => false) "h" (Except.ok "")
      [("d", "x")]).sent.length = 1 :=
  ⟨by decide,
    state_commit_regardless_of_delivery (fun _ => false) "h" "" [("d", "x")]
      (by decide)⟩

/-- C5: every entry stored by the parser is a line of the raw text
classified as a problem line (some counter of the regex matched with a
positive value), stored under the key formed by the text before the first
`" - "` with the full line as description; every problem line is represented
under its key; and the parse is empty iff no line is a problem line. -/
theorem parser_characterization (raw k d line : String) :
    ((k, d) ∈ parseOutput raw →
      (d ∈ goScanLines raw ∧ lineHasProblem d.data = true ∧
        k = String.mk (beforeSep d.data)))
  ∧ (line ∈ goScanLines raw → lineHasProblem line.data = true →
      containsKey (parseOutput raw) (String.mk (beforeSep line.data)) = true)
  ∧ (parseOutput raw = [] ↔
      ∀ l ∈ goScanLines raw, lineHasProblem l.data = false) := by
  refine ⟨?_, ?_, parseOutput_empty_iff⟩
  · intro h
    exact parseOutput_sound h
  · intro h1 h2
    exact parseOutput_complete h1 h2

theorem parser_characterization_witness :
    parseOutput "Disk[0](M) - Wear: 1"
      = [("Disk[0](M)", "Disk[0](M) - Wear: 1")]
  ∧ (("Disk[0](M)", "Disk[0](M) - Wear: 1")
        ∈ parseOutput "Disk[0](M) - Wear: 1" →
      ("Disk[0](M) - Wear: 1" ∈ goScanLines "Disk[0](M) - Wear: 1" ∧
        lineHasProblem "Disk[0](M) - Wear: 1".data = true ∧
        "Disk[0](M)" = String.mk (beforeSep "Disk[0](M) - Wear: 1".data)))
  ∧ ("Disk[0](M) - Wear: 1" ∈ goScanLines "Disk[0](M) - Wear: 1" →
      lineHasProblem "Disk[0](M) - Wear: 1".data = true →
      containsKey (parseOutput "Disk[0](M) - Wear: 1")
        (String.mk (beforeSep "Disk[0](M) - Wear: 1".data)) = true)
  ∧ (parseOutput "Disk[0](M) - Wear: 1" = [] ↔
      ∀ l ∈ goScanLines "Disk[0](M) - Wear: 1",
        lineHasProblem l.data = false) :=
  ⟨by decide,
    parser_characterization "Disk[0](M) - Wear: 1" "Disk[0](M)"
      "Disk[0](M) - Wear: 1" "Disk[0](M) - Wear: 1"⟩

/-! ## Helper lemmas about the acquisition-failure path -/

theorem acqErrMsg_inj {a b : String} (h : acqErrMsg a = acqErrMsg b) : a = b := by
  unfold acqErrMsg at h
  obtain ⟨la⟩ := a
  obtain ⟨lb⟩ := b
  have hd : "Failed to run PowerShell command: ".data ++ la
      = "Failed to run PowerShell command: ".data ++ lb := congrArg String.data h
  have := List.append_cancel_left hd
  rw [this]

theorem error_cycle_same (oracle : Nat → Bool) (hostname e : String)
    (last : ProblemSet) (h : lookupD last sentinelKey = acqErrMsg e) :
    checkDiskStatusAndNotify oracle hostname (Except.error e) last
      = ⟨last, []⟩ := by
  simp [checkDiskStatusAndNotify, h]

theorem error_cycle_diff (oracle : Nat → Bool) (hostname e : String)
    (last : ProblemSet) (h : ¬lookupD last sentinelKey = acqErrMsg e) :
    checkDiskStatusAndNotify oracle hostname (Except.error e) last
      = ⟨[(sentinelKey, acqErrMsg e)],
          [(alertOf (acqErrMsg e),
            sendTelegramNotification oracle hostname (alertOf (acqErrMsg e)))]⟩ := by
  simp [checkDiskStatusAndNotify, h]

/-- After any acquisition-failure cycle the sentinel key stores the current
failure message (either it already did, or the state was just replaced). -/
theorem sentinel_after_error (oracle : Nat → Bool) (hostname e : String)
    (last : ProblemSet) :
    lookupD (checkDiskStatusAndNotify oracle hostname
      (Except.error e) last).newState sentinelKey = acqErrMsg e := by
  by_cases h : lookupD last sentinelKey = acqErrMsg e
  · rw [error_cycle_same oracle hostname e last h]
    exact h
  · rw [error_cycle_diff oracle hostname e last h]
    show lookupD [(sentinelKey, acqErrMsg e)] sentinelKey = acqErrMsg e
    simp [lookupD, List.lookup]

/-! ## Claim theorems (orchestrator and test command) -/

/-- C7: an acquisition-failure cycle sends an alert iff the current failure
message differs from the one stored under the sentinel key; consequently the
same failure message twice in a row alerts at most once (the second cycle is
always silent), while a different failure in the next cycle always alerts
again. -/
theorem acquisition_failure_dedup (oracle : Nat → Bool) (hostname e1 e2 : String)
    (last : ProblemSet) :
    ((checkDiskStatusAndNotify oracle hostname (Except.error e1) last).sent ≠ []
      ↔ ¬lookupD last sentinelKey = acqErrMsg e1)
  ∧ (¬lookupD last sentinelKey = acqErrMsg e1 →
      (checkDiskStatusAndNotify oracle hostname
        (Except.error e1) last).sent.length = 1)
  ∧ (checkDiskStatusAndNotify oracle hostname (Except.error e1)
      (checkDiskStatusAndNotify oracle hostname
        (Except.error e1) last).newState).sent = []
  ∧ (e1 ≠ e2 →
      (checkDiskStatusAndNotify oracle hostname (Except.error e2)
        (checkDiskStatusAndNotify oracle hostname
          (Except.error e1) last).newState).sent.length = 1) := by
  refine ⟨?_, ?_, ?_, ?_⟩
  · by_cases h : lookupD last sentinelKey = acqErrMsg e1
    · rw [error_cycle_same oracle hostname e1 last h]
      simp [h]
    · rw [error_cycle_diff oracle hostname e1 last h]
      simp [h]
  · intro h
    rw [error_cycle_diff oracle hostname e1 last h]
    rfl
  · rw [error_cycle_same oracle hostname e1 _
      (sentinel_after_error oracle hostname e1 last)]
  · intro hne
    have hs := sentinel_after_error oracle hostname e1 last
    have hmsg : ¬acqErrMsg e1 = acqErrMsg e2 := fun hc => hne (acqErrMsg_inj hc)
    have h2 : ¬lookupD (checkDiskStatusAndNotify oracle hostname
        (Except.error e1) last).newState sentinelKey = acqErrMsg e2 := by
      rw [hs]; exact hmsg
    rw [error_cycle_diff oracle hostname e2 _ h2]
    rfl

theorem acquisition_failure_dedup_witness :
    ((checkDiskStatusAndNotify (fun _ => false) "h"
        (Except.error "x") []).sent ≠ []
      ↔ ¬lookupD [] sentinelKey = acqErrMsg "x")
  ∧ (¬lookupD [] sentinelKey = acqErrMsg "x" →
      (checkDiskStatusAndNotify (fun _ => false) "h"
        (Except.error "x") []).sent.length = 1)
  ∧ (checkDiskStatusAndNotify (fun _ => false) "h" (Except.error "x")
      (checkDiskStatusAndNotify (fun _ => false) "h"
        (Except.error "x") []).newState).sent = []
  ∧ ("x" ≠ "y" →
      (checkDiskStatusAndNotify (fun _ => false) "h" (Except.error "y")
        (checkDiskStatusAndNotify (fun _ => false) "h"
          (Except.error "x") []).newState).sent.length = 1) :=
  acquisition_failure_dedup (fun _ => false) "h" "x" "y" []

/-- C9: an acquisition failure with a new message wipes the entire retained
state down to the single sentinel entry; a following successful cycle whose
parse does not contain the sentinel key notifies, classifies every parsed
device (including every previously flagged one) as detected/changed, reports
the sentinel key itself as resolved, and commits the parse as the new
state. -/
theorem sentinel_wipe_and_rereport (oracle : Nat → Bool) (hostname e raw : String)
    (last : ProblemSet)
    (h1 : ¬lookupD last sentinelKey = acqErrMsg e)
    (h2 : containsKey (parseOutput raw) sentinelKey = false) :
    (checkDiskStatusAndNotify oracle hostname (Except.error e) last).newState
      = [(sentinelKey, acqErrMsg e)]
  ∧ (∀ kv ∈ parseOutput raw,
      kv ∈ changedOrNew [(sentinelKey, acqErrMsg e)] (parseOutput raw))
  ∧ sentinelKey ∈ resolvedKeys [(sentinelKey, acqErrMsg e)] (parseOutput raw)
  ∧ (checkDiskStatusAndNotify oracle hostname (Except.ok raw)
      [(sentinelKey, acqErrMsg e)]).sent.length = 1
  ∧ (checkDiskStatusAndNotify oracle hostname (Except.ok raw)
      [(sentinelKey, acqErrMsg e)]).newState = parseOutput raw := by
  have hn : List.lookup sentinelKey (parseOutput raw) = none :=
    lookup_eq_none_iff.mpr h2
  have hps : psEqual (parseOutput raw) [(sentinelKey, acqErrMsg e)] = false := by
    simp [psEqual, hn]
  refine ⟨?_, ?_, ?_, ?_, ?_⟩
  · rw [error_cycle_diff oracle hostname e last h1]
  · intro kv hkv
    have hkey : kv.1 ≠ sentinelKey := by
      intro hk
      have : containsKey (parseOutput raw) sentinelKey = true :=
        containsKey_iff.mpr (List.mem_map.mpr ⟨kv, hkv, hk⟩)
      rw [h2] at this
      exact Bool.false_ne_true this
    have hlk : lookupD [(sentinelKey, acqErrMsg e)] kv.1 = "" := by
      unfold lookupD
      rw [List.lookup]
      have hb : (kv.1 == sentinelKey) = false := by simpa using hkey
      rw [hb]
      rfl
    refine List.mem_filter.mpr ⟨hkv, ?_⟩
    have hd : kv.2 ≠ "" := parseOutput_desc_ne_empty kv hkv
    simp [hlk, Ne.symm hd]
  · refine List.mem_filter.mpr ⟨by simp [sentinelKey], ?_⟩
    simp [h2]
  · simp [checkDiskStatusAndNotify, hps]
  · simp [checkDiskStatusAndNotify, hps]

theorem sentinel_wipe_and_rereport_witness :
    ¬lookupD [] sentinelKey = acqErrMsg "boom"
  ∧ containsKey (parseOutput "Disk[0](M) - Wear: 1") sentinelKey = false
  ∧ ((checkDiskStatusAndNotify (fun _ => false) "h"
        (Except.error "boom") []).newState
      = [(sentinelKey, acqErrMsg "boom")]
  ∧ (∀ kv ∈ parseOutput "Disk[0](M) - Wear: 1",
      kv ∈ changedOrNew [(sentinelKey, acqErrMsg "boom")]
        (parseOutput "Disk[0](M) - Wear: 1"))
  ∧ sentinelKey ∈ resolvedKeys [(sentinelKey, acqErrMsg "boom")]
      (parseOutput "Disk[0](M) - Wear: 1")
  ∧ (checkDiskStatusAndNotify (fun _ => false) "h"
      (Except.ok "Disk[0](M) - Wear: 1")
        [(sentinelKey, acqErrMsg "boom")]).sent.length = 1
  ∧ (checkDiskStatusAndNotify (fun _ => false) "h"
      (Except.ok "Disk[0](M) - Wear: 1")
        [(sentinelKey, acqErrMsg "boom")]).newState
      = parseOutput "Disk[0](M) - Wear: 1") :=
  ⟨by decide, by decide,
    sentinel_wipe_and_rereport (fun _ => false) "h" "boom"
      "Disk[0](M) - Wear: 1" [] (by decide) (by decide)⟩

/-- C8: the test invocation always hands the delivery engine a summary of
the current (post-cycle) retained state as its final message — also when the
cycle itself sent nothing because nothing changed — and when that state is
empty the summary is exactly the fixed no-active-problems sentence. -/
theorem test_command_summary (oracle : Nat → Bool) (hostname : String)
    (acq : Except String String) (last : ProblemSet) :
    (runTestCommand oracle hostname acq last).sent.getLast? = some
      ((runTestCommand oracle hostname acq last).summary,
        sendTelegramNotification oracle hostname
          (runTestCommand oracle hostname acq last).summary)
  ∧ (runTestCommand oracle hostname acq last).summary
      = summaryOf (runTestCommand oracle hostname acq last).cycle.newState
  ∧ ((runTestCommand oracle hostname acq last).cycle.newState = [] →
      (runTestCommand oracle hostname acq last).summary
        = "✅ Test complete. No active problems found.")
  ∧ ((checkDiskStatusAndNotify oracle hostname acq last).sent = [] →
      (runTestCommand oracle hostname acq last).sent.length = 1) := by
  refine ⟨?_, rfl, ?_, ?_⟩
  · show ((checkDiskStatusAndNotify oracle hostname acq last).sent
      ++ [_]).getLast? = _
    rw [List.getLast?_concat]
    rfl
  · intro h
    show summaryOf (checkDiskStatusAndNotify oracle hostname acq last).newState
      = "✅ Test complete. No active problems found."
    have h' : (checkDiskStatusAndNotify oracle hostname acq last).newState
        = [] := h
    rw [h']
    rfl
  · intro h
    show ((checkDiskStatusAndNotify oracle hostname acq last).sent
      ++ [_]).length = 1
    rw [h]
    rfl

theorem test_command_summary_witness :
    (runTestCommand (fun _ => true) "h" (Except.ok "") []).sent.getLast? = some
      ((runTestCommand (fun _ => true) "h" (Except.ok "") []).summary,
        sendTelegramNotification (fun _ => true) "h"
          (runTestCommand (fun _ => true) "h" (Except.ok "") []).summary)
  ∧ (runTestCommand (fun _ => true) "h" (Except.ok "") []).summary
      = summaryOf (runTestCommand (fun _ => true) "h"
          (Except.ok "") []).cycle.newState
  ∧ ((runTestCommand (fun _ => true) "h" (Except.ok "") []).cycle.newState = [] →
      (runTestCommand (fun _ => true) "h" (Except.ok "") []).summary
        = "✅ Test complete. No active problems found.")
  ∧ ((checkDiskStatusAndNotify (fun _ => true) "h" (Except.ok "") []).sent = [] →
      (runTestCommand (fun _ => true) "h" (Except.ok "") []).sent.length = 1) :=
  test_command_summary (fun _ => true) "h" (Except.ok "") []

/-- C10: a test invocation runs one full diff-based check cycle first and
appends its summary notification after whatever that cycle sent, and the
summary describes the retained state as updated by that cycle; concretely, a
test run over an empty report with one previously flagged device emits two
notifications, and its summary is the no-active-problems sentence — which
differs from the summary of the pre-run state. -/
theorem test_command_runs_cycle_first (oracle : Nat → Bool) (hostname : String)
    (acq : Except String String) (last : ProblemSet) :
    (runTestCommand oracle hostname acq last).cycle
      = checkDiskStatusAndNotify oracle hostname acq last
  ∧ (runTestCommand oracle hostname acq last).sent
      = (checkDiskStatusAndNotify oracle hostname acq last).sent
        ++ [((runTestCommand oracle hostname acq last).summary,
            sendTelegramNotification oracle hostname
              (runTestCommand oracle hostname acq last).summary)]
  ∧ (runTestCommand oracle hostname acq last).summary
      = summaryOf (checkDiskStatusAndNotify oracle hostname acq last).newState
  ∧ (runTestCommand (fun _ => true) "h" (Except.ok "") [("d", "x")]).sent.length
      = 2
  ∧ (runTestCommand (fun _ => true) "h" (Except.ok "") [("d", "x")]).summary
      = noProblemsMsg
  ∧ ¬summaryOf [("d", "x")] = noProblemsMsg := by
  refine ⟨rfl, rfl, rfl, by decide, by decide, by decide⟩

theorem test_command_runs_cycle_first_witness :
    (runTestCommand (fun _ => false) "h" (Except.ok "") []).cycle
      = checkDiskStatusAndNotify (fun _ => false) "h" (Except.ok "") []
  ∧ (runTestCommand (fun _ => false) "h" (Except.ok "") []).sent
      = (checkDiskStatusAndNotify (fun _ => false) "h" (Except.ok "") []).sent
        ++ [((runTestCommand (fun _ => false) "h" (Except.ok "") []).summary,
            sendTelegramNotification (fun _ => false) "h"
              (runTestCommand (fun _ => false) "h" (Except.ok "") []).summary)]
  ∧ (runTestCommand (fun _ => false) "h" (Except.ok "") []).summary
      = summaryOf (checkDiskStatusAndNotify (fun _ => false) "h"
          (Except.ok "") []).newState
  ∧ (runTestCommand (fun _ => true) "h" (Except.ok "") [("d", "x")]).sent.length
      = 2
  ∧ (runTestCommand (fun _ => true) "h" (Except.ok "") [("d", "x")]).summary
      = noProblemsMsg
  ∧ ¬summaryOf [("d", "x")] = noProblemsMsg :=
  test_command_runs_cycle_first (fun _ => false) "h" (Except.ok "") []

end DiskMonitor
